import Mathlib

/-!
# Verification of the SolanaHelperBot claim/process/record worker

Shallow embedding of the helper-bot worker (`helper_index.js` and its
variants under `src/unnamed/`): the `dice_roll_requests` table, the
transactional claim query (`SELECT … WHERE status = 'pending' ORDER BY
requested_at ASC LIMIT $1 FOR UPDATE SKIP LOCKED`), the per-row
processing loop of `checkAndProcessRollRequests`, the guarded update
(`UPDATE … WHERE request_id = $3 AND status = 'pending'`), the
`setInterval`-driven scheduler of `startHelperBot`, and the
`shutdownHelper` signal handler.

Two strategy variants are embedded:
* the animated-emoji DB-poll variant (`src/unnamed/part_005`, also
  `part_001`), which calls `bot.sendDice` per row and records
  `completed`/`error`;
* the plain DB-poll variant (`src/unnamed/part_002`), which generates
  the roll locally with `Math.floor(Math.random() * 6) + 1` and always
  records `completed`.
-/

/-- The `status` column of `dice_roll_requests`: `'pending' | 'completed' | 'error'`. -/
inductive Status where
  | pending : Status
  | completed : Status
  | error : Status
deriving DecidableEq

/-- One row of the `dice_roll_requests` table.  `emoji_type` is the nullable
`variant` column (part_005 selects it; `Option.none` models SQL NULL, and a
JavaScript empty string is `some ""`).  `lockedByOther` models a row-level
lock currently held by another in-flight transaction, which the
`FOR UPDATE SKIP LOCKED` clause skips. -/
structure RollRequest where
  request_id : Nat
  game_id : Nat
  chat_id : Nat
  user_id : Nat
  emoji_type : Option String
  status : Status
  roll_value : Option Nat
  requested_at : Nat
  processed_at : Option Nat
  lockedByOther : Bool
deriving DecidableEq

/-- The `WHERE status = 'pending' … FOR UPDATE SKIP LOCKED` condition: the row
is pending and not leased by another in-flight transaction. -/
def pendingUnlocked (r : RollRequest) : Bool :=
  decide (r.status = Status.pending) && !r.lockedByOther

/-- The `ORDER BY requested_at ASC` comparison. -/
def byRequestedAt (a b : RollRequest) : Prop :=
  a.requested_at ≤ b.requested_at

instance : DecidableRel byRequestedAt :=
  fun a b => Nat.decLe a.requested_at b.requested_at

instance : IsTotal RollRequest byRequestedAt :=
  ⟨fun a b => Nat.le_total a.requested_at b.requested_at⟩

instance : IsTrans RollRequest byRequestedAt :=
  ⟨fun _ _ _ hab hbc => Nat.le_trans hab hbc⟩

/-- The claim query of `checkAndProcessRollRequests`:
`SELECT … FROM dice_roll_requests WHERE status = 'pending'
 ORDER BY requested_at ASC LIMIT $1 FOR UPDATE SKIP LOCKED`
over a table modelled as a list of rows. -/
def claimBatch (t : List RollRequest) (limit : Nat) : List RollRequest :=
  (List.insertionSort byRequestedAt (t.filter pendingUnlocked)).take limit

/-- The default animated emoji: `request.emoji_type || '🎲'` falls back to the
standard six-sided die when `emoji_type` is null/undefined or falsy. -/
def defaultEmoji : String := "🎲"

/-- The variant selection `const emojiToSend = request.emoji_type || '🎲'` of
part_005: JavaScript `||` treats `null`, `undefined` and the empty string as
falsy, so all three select the default die emoji. -/
def emojiToSend (emoji_type : Option String) : String :=
  match emoji_type with
  | none => defaultEmoji
  | some s => if s = "" then defaultEmoji else s

/-- Outcome of one `bot.sendDice` call as observed by the inner
`try`/`catch` of `checkAndProcessRollRequests` (part_005 / part_001):
the sent message carried a `dice.value`, or it carried no usable dice
result, or the call threw. -/
inductive ChannelOutcome where
  | ok : Nat → ChannelOutcome
  | noDice : ChannelOutcome
  | raised : ChannelOutcome
deriving DecidableEq

/-- The per-row result mapping of part_005 lines 82–104: `rollValue` starts
`null` and `updateStatus` starts `'error'`; only a sent message carrying a
dice value switches them to `completed` with that value. -/
def processRow (o : ChannelOutcome) : Status × Option Nat :=
  match o with
  | ChannelOutcome.ok v => (Status.completed, some v)
  | ChannelOutcome.noDice => (Status.error, none)
  | ChannelOutcome.raised => (Status.error, none)

/-- The guard `request_id = $3 AND status = 'pending'` of the update query. -/
def matchesPending (rid : Nat) (r : RollRequest) : Bool :=
  r.request_id == rid && decide (r.status = Status.pending)

/-- The outcome update of `checkAndProcessRollRequests`:
`UPDATE dice_roll_requests SET status = $1, roll_value = $2,
 processed_at = NOW() WHERE request_id = $3 AND status = 'pending'`.
Returns the updated table together with the reported `rowCount`. -/
def recordOutcome (t : List RollRequest) (rid : Nat) (st : Status)
    (rv : Option Nat) (now : Nat) : List RollRequest × Nat :=
  (t.map fun r =>
    if matchesPending rid r then
      { r with status := st, roll_value := rv, processed_at := some now }
    else r,
   (t.filter (matchesPending rid)).length)

/-- The `for (const request of result.rows)` loop of part_005 (lines 80–117),
run against the working state of the open transaction.  `chan` gives the
channel outcome of the `bot.sendDice` call for a row (exceptions from that
call are caught by the inner `try`), and `exc rid = true` marks a row at
which an unexpected exception (one the inner `try` does not cover, e.g. a
failing `client.query`) escapes row processing and propagates to the outer
`catch`.  On success it returns the updated table, the list of
`(request_id, status, roll_value)` records written, and the number of
`[DB_PROCESS_WARN]` warnings (update reported zero rows). -/
def processRows (chan : Nat → ChannelOutcome) (exc : Nat → Bool) (now : Nat) :
    List RollRequest → List RollRequest →
    Except Unit (List RollRequest × List (Nat × Status × Option Nat) × Nat)
  | t, [] => Except.ok (t, [], 0)
  | t, r :: rs =>
    if exc r.request_id then Except.error ()
    else
      let p := processRow (chan r.request_id)
      let u := recordOutcome t r.request_id p.1 p.2 now
      match processRows chan exc now u.1 rs with
      | Except.ok x =>
          Except.ok (x.1, (r.request_id, p.1, p.2) :: x.2.1,
            (if u.2 = 0 then 1 else 0) + x.2.2)
      | Except.error e => Except.error e

/-- Observable result of one run of `checkAndProcessRollRequests`:
the table state after the transaction ends (committed updates, or the
original table after a rollback), whether the transaction committed,
how many times `client.release()` was called, whether an exception
escaped the function (the outer `catch` swallows everything, so this is
the embedding of "the scheduler keeps ticking"), the records written,
and the number of zero-row-update warnings. -/
structure CycleResult where
  table : List RollRequest
  committed : Bool
  released : Nat
  raisedOut : Bool
  recorded : List (Nat × Status × Option Nat)
  warnings : Nat
deriving DecidableEq

/-- One full cycle of `checkAndProcessRollRequests` in the animated-emoji
variant (part_005): claim a batch; if it is empty, commit, call
`client.release()` inline and return — after which the `finally` block
calls `client.release()` a second time; otherwise process every row and
commit, or roll back if an unexpected exception reached the outer
`catch`; the `finally` block releases the client exactly once on these
paths. -/
def checkAndProcessRollRequestsAnim (t : List RollRequest) (limit : Nat)
    (chan : Nat → ChannelOutcome) (exc : Nat → Bool) (now : Nat) : CycleResult :=
  let batch := claimBatch t limit
  if batch.isEmpty then
    { table := t, committed := true, released := 2, raisedOut := false,
      recorded := [], warnings := 0 }
  else
    match processRows chan exc now t batch with
    | Except.ok x =>
        { table := x.1, committed := true, released := 1, raisedOut := false,
          recorded := x.2.1, warnings := x.2.2 }
    | Except.error _ =>
        { table := t, committed := false, released := 1, raisedOut := false,
          recorded := [], warnings := 0 }

/-- The row loop of the plain DB-poll variant (part_002 lines 91–112): the
roll is generated locally as `Math.floor(Math.random() * 6) + 1` — embedded
as `entropy rid % 6 + 1` for an arbitrary entropy source — and the update
always writes `status = 'completed'`.  There is no inner `try`, so `exc`
marks a row whose query raises to the outer `catch`. -/
def processRowsDbPoll (entropy : Nat → Nat) (exc : Nat → Bool) (now : Nat) :
    List RollRequest → List RollRequest →
    Except Unit (List RollRequest × List (Nat × Status × Option Nat) × Nat)
  | t, [] => Except.ok (t, [], 0)
  | t, r :: rs =>
    if exc r.request_id then Except.error ()
    else
      let v := entropy r.request_id % 6 + 1
      let u := recordOutcome t r.request_id Status.completed (some v) now
      match processRowsDbPoll entropy exc now u.1 rs with
      | Except.ok x =>
          Except.ok (x.1, (r.request_id, Status.completed, some v) :: x.2.1,
            (if u.2 = 0 then 1 else 0) + x.2.2)
      | Except.error e => Except.error e

/-- One full cycle of `checkAndProcessRollRequests` in the plain DB-poll
variant (part_002): identical transaction shape, but the empty-batch path
has no inline release, so every path releases exactly once. -/
def checkAndProcessRollRequestsDbPoll (t : List RollRequest) (limit : Nat)
    (entropy : Nat → Nat) (exc : Nat → Bool) (now : Nat) : CycleResult :=
  let batch := claimBatch t limit
  if batch.isEmpty then
    { table := t, committed := true, released := 1, raisedOut := false,
      recorded := [], warnings := 0 }
  else
    match processRowsDbPoll entropy exc now t batch with
    | Except.ok x =>
        { table := x.1, committed := true, released := 1, raisedOut := false,
          recorded := x.2.1, warnings := x.2.2 }
    | Except.error _ =>
        { table := t, committed := false, released := 1, raisedOut := false,
          recorded := [], warnings := 0 }

/-- The records written by a row-processing run (empty if the run aborted,
since the whole transaction is then rolled back). -/
def recordedEntries
    (res : Except Unit (List RollRequest × List (Nat × Status × Option Nat) × Nat)) :
    List (Nat × Status × Option Nat) :=
  match res with
  | Except.ok x => x.2.1
  | Except.error _ => []

/-- Scheduler events of the worker process: a `setInterval` timer tick, which
invokes the async `checkAndProcessRollRequests`, and the completion of one
in-flight invocation of that function. -/
inductive SchedulerEvent where
  | tick : SchedulerEvent
  | cycleEnd : SchedulerEvent
deriving DecidableEq

/-- The scheduling discipline installed by `startHelperBot` (part_005 line
167, part_001 line 192): `setInterval(checkAndProcessRollRequests,
POLLING_INTERVAL_MS)`.  The timer handler invokes the async cycle function
unconditionally — there is no running-flag check — so a tick always starts
one more in-flight cycle, and a completion ends one. -/
def startHelperBotStep (active : Nat) : SchedulerEvent → Nat
  | SchedulerEvent.tick => active + 1
  | SchedulerEvent.cycleEnd => active - 1

/-- Number of in-flight cycle invocations after a sequence of scheduler
events, starting from `a` in-flight invocations. -/
def activeCycles (a : Nat) (es : List SchedulerEvent) : Nat :=
  es.foldl startHelperBotStep a

/-- Largest number of simultaneously in-flight cycle invocations reached
while running a sequence of scheduler events from `a` in-flight ones. -/
def maxActive : Nat → List SchedulerEvent → Nat
  | a, [] => a
  | a, e :: es => max a (maxActive (startHelperBotStep a e) es)

/-- The traces in which every timer tick fires while no cycle is in flight —
i.e. each cycle invocation completes before the next tick. -/
def ticksOnlyWhenIdle : Nat → List SchedulerEvent → Bool
  | _, [] => true
  | a, SchedulerEvent.tick :: es => a == 0 && ticksOnlyWhenIdle (a + 1) es
  | a, SchedulerEvent.cycleEnd :: es => ticksOnlyWhenIdle (a - 1) es

/-- Lifecycle state of the worker process as touched by `shutdownHelper`
(part_005 lines 178–197): the `isShuttingDownHelper` flag, whether the DB
polling interval is set (`dbPollingIntervalId`), whether Telegram polling is
active (`bot.isPolling()`), whether the pg pool is open, the exit code, and
counters for the three teardown actions. -/
structure HelperBotState where
  isShuttingDownHelper : Bool
  dbPollingActive : Bool
  telegramPolling : Bool
  poolOpen : Bool
  exitCode : Option Nat
  clearIntervalCount : Nat
  stopPollingCount : Nat
  poolEndCount : Nat
deriving DecidableEq

/-- The `shutdownHelper(signal)` handler of part_005 (and `shutdown` of
part_001): if `isShuttingDownHelper` is already set, log and return;
otherwise set the flag (synchronously, before any `await`), clear the
polling interval if one is set, stop Telegram polling if active, close the
pool, and call `process.exit(0)`. -/
def shutdownHelper (s : HelperBotState) : HelperBotState :=
  if s.isShuttingDownHelper then s
  else
    { isShuttingDownHelper := true
      dbPollingActive := false
      telegramPolling := false
      poolOpen := false
      exitCode := some 0
      clearIntervalCount := s.clearIntervalCount + (if s.dbPollingActive then 1 else 0)
      stopPollingCount := s.stopPollingCount + (if s.telegramPolling then 1 else 0)
      poolEndCount := s.poolEndCount + 1 }

/-- A sample pending row, used to evaluate the embedded operations on
concrete inputs. -/
def sampleRow : RollRequest :=
  { request_id := 1
    game_id := 10
    chat_id := 100
    user_id := 1000
    emoji_type := none
    status := Status.pending
    roll_value := none
    requested_at := 0
    processed_at := none
    lockedByOther := false }

/-- A lifecycle state in which a shutdown is already in progress. -/
def shutdownInProgressState : HelperBotState :=
  { isShuttingDownHelper := true
    dbPollingActive := false
    telegramPolling := false
    poolOpen := false
    exitCode := some 0
    clearIntervalCount := 1
    stopPollingCount := 1
    poolEndCount := 1 }

/-- Helper: the boolean row guard of the update query decoded. -/
theorem matchesPending_iff (rid : Nat) (r : RollRequest) :
    matchesPending rid r = true ↔ r.request_id = rid ∧ r.status = Status.pending := by
  simp [matchesPending]

/-- Helper: rows returned by the claim query come from the table, are
pending, and are not leased by another transaction. -/
theorem mem_claimBatch {t : List RollRequest} {limit : Nat} {r : RollRequest}
    (hr : r ∈ claimBatch t limit) :
    r ∈ t ∧ r.status = Status.pending ∧ r.lockedByOther = false := by
  have hmem : r ∈ List.insertionSort byRequestedAt (t.filter pendingUnlocked) :=
    List.mem_of_mem_take hr
  have hfil : r ∈ t.filter pendingUnlocked :=
    (List.perm_insertionSort byRequestedAt (t.filter pendingUnlocked)).subset hmem
  have ht : r ∈ t := List.mem_of_mem_filter hfil
  have hp : pendingUnlocked r = true := List.of_mem_filter hfil
  simp only [pendingUnlocked, Bool.and_eq_true, decide_eq_true_eq,
    Bool.not_eq_true'] at hp
  exact ⟨ht, hp.1, hp.2⟩

/-- Helper: with no unexpected exception, the row loop of the animated
variant processes the whole batch and records one outcome per row, in batch
order. -/
theorem processRows_ok_of_no_exc (chan : Nat → ChannelOutcome) (now : Nat)
    (batch : List RollRequest) : ∀ t : List RollRequest, ∃ t' w,
      processRows chan (fun _ => false) now t batch =
        Except.ok (t', batch.map (fun r => (r.request_id, processRow (chan r.request_id))), w) := by
  induction batch with
  | nil => exact fun t => ⟨t, 0, rfl⟩
  | cons r rs ih =>
    intro t
    obtain ⟨t', w, h⟩ := ih (recordOutcome t r.request_id
      (processRow (chan r.request_id)).1 (processRow (chan r.request_id)).2 now).1
    refine ⟨t', (if (recordOutcome t r.request_id (processRow (chan r.request_id)).1
      (processRow (chan r.request_id)).2 now).2 = 0 then 1 else 0) + w, ?_⟩
    simp [processRows, h]

/-- Helper: if an unexpected exception is flagged for some row of the batch,
the row loop aborts with an error (which the outer catch turns into a
rollback). -/
theorem processRows_error_of_exc (chan : Nat → ChannelOutcome) (exc : Nat → Bool)
    (now : Nat) (batch : List RollRequest)
    (h : ∃ r ∈ batch, exc r.request_id = true) :
    ∀ t : List RollRequest, processRows chan exc now t batch = Except.error () := by
  induction batch with
  | nil => simp at h
  | cons r rs ih =>
    intro t
    by_cases hr : exc r.request_id = true
    · simp [processRows, hr]
    · have hrs : ∃ r' ∈ rs, exc r'.request_id = true := by
        obtain ⟨r', hr', he⟩ := h
        rcases List.mem_cons.mp hr' with rfl | hmem
        · exact absurd he hr
        · exact ⟨r', hmem, he⟩
      have := ih hrs (recordOutcome t r.request_id
        (processRow (chan r.request_id)).1 (processRow (chan r.request_id)).2 now).1
      simp [processRows, hr, this]

/-- **C2.** Every call to the claim operation with limit `N` returns at most
`N` rows, each of which comes from the table, had `status = 'pending'` at the
time of the select, and was not leased by another in-flight transaction
(leased rows are skipped, not waited on); the returned rows are ordered
non-decreasing by `requested_at`. -/
theorem claimBatch_spec (t : List RollRequest) (limit : Nat) :
    (claimBatch t limit).length ≤ limit ∧
    (∀ r ∈ claimBatch t limit,
      r ∈ t ∧ r.status = Status.pending ∧ r.lockedByOther = false) ∧
    List.Pairwise byRequestedAt (claimBatch t limit) := by
  refine ⟨?_, ?_, ?_⟩
  · calc (claimBatch t limit).length
        = min limit (List.insertionSort byRequestedAt (t.filter pendingUnlocked)).length := by
          simp [claimBatch]
      _ ≤ limit := Nat.min_le_left _ _
  · exact fun r hr => mem_claimBatch hr
  · have hs : List.Sorted byRequestedAt
        (List.insertionSort byRequestedAt (t.filter pendingUnlocked)) :=
      List.sorted_insertionSort byRequestedAt (t.filter pendingUnlocked)
    exact hs.take

/-- **C3.** Every outcome the animated-variant cycle records is terminal and
satisfies the invariant: the recorded `roll_value` is non-null iff the
recorded status is `completed`; any non-null value lies in `[1,6]` (given
the Notification Channel contract that a successful `sendDice` yields a
value in `[1,6]`); a row recorded as `error` has `roll_value = null`. -/
theorem terminal_outcome_invariant (chan : Nat → ChannelOutcome)
    (hchan : ∀ rid v, chan rid = ChannelOutcome.ok v → 1 ≤ v ∧ v ≤ 6)
    (now : Nat) (t batch : List RollRequest) :
    ∀ e ∈ recordedEntries (processRows chan (fun _ => false) now t batch),
      (e.2.2 ≠ none ↔ e.2.1 = Status.completed) ∧
      (∀ x, e.2.2 = some x → 1 ≤ x ∧ x ≤ 6) ∧
      (e.2.1 = Status.error → e.2.2 = none) := by
  obtain ⟨t', w, h⟩ := processRows_ok_of_no_exc chan now batch t
  intro e he
  rw [h] at he
  simp only [recordedEntries] at he
  obtain ⟨r, hr, rfl⟩ := List.mem_map.mp he
  cases hc : chan r.request_id with
  | ok v =>
    have hv := hchan _ _ hc
    refine ⟨by simp [processRow, hc], ?_, by simp [processRow, hc]⟩
    intro x hx
    simp [processRow, hc] at hx
    exact hx ▸ hv
  | noDice => simp [processRow, hc]
  | raised => simp [processRow, hc]

/-- Witness for C3, at a channel that always answers with value 4. -/
theorem terminal_outcome_invariant_witness :
    (((1, Status.completed, some 4) : Nat × Status × Option Nat).2.2 ≠ none ↔
      ((1, Status.completed, some 4) : Nat × Status × Option Nat).2.1 = Status.completed) ∧
    (∀ x, ((1, Status.completed, some 4) : Nat × Status × Option Nat).2.2 = some x →
      1 ≤ x ∧ x ≤ 6) ∧
    (((1, Status.completed, some 4) : Nat × Status × Option Nat).2.1 = Status.error →
      ((1, Status.completed, some 4) : Nat × Status × Option Nat).2.2 = none) :=
  terminal_outcome_invariant (fun _ => ChannelOutcome.ok 4)
    (fun _ v hv => by cases hv; exact ⟨by decide, by decide⟩) 0
    [sampleRow] [sampleRow] (1, Status.completed, some 4) (by decide)

/-- **C4.** With no unexpected exception, a channel failure for one row
(raise, or no usable dice result) never aborts the batch: the row loop
succeeds, records exactly one outcome per claimed row in order, and each
failing row is recorded as `error` with null `roll_value`. -/
theorem channel_failure_per_row_isolation (chan : Nat → ChannelOutcome)
    (now : Nat) (t batch : List RollRequest) :
    (∃ x, processRows chan (fun _ => false) now t batch = Except.ok x) ∧
    recordedEntries (processRows chan (fun _ => false) now t batch) =
      batch.map (fun r => (r.request_id, processRow (chan r.request_id))) ∧
    (∀ r ∈ batch,
      (chan r.request_id = ChannelOutcome.raised ∨
       chan r.request_id = ChannelOutcome.noDice) →
      (r.request_id, Status.error, (none : Option Nat)) ∈
        recordedEntries (processRows chan (fun _ => false) now t batch)) := by
  obtain ⟨t', w, h⟩ := processRows_ok_of_no_exc chan now batch t
  have hrec : recordedEntries (processRows chan (fun _ => false) now t batch) =
      batch.map (fun r => (r.request_id, processRow (chan r.request_id))) := by
    rw [h]; rfl
  refine ⟨⟨_, h⟩, hrec, ?_⟩
  intro r hr hfail
  rw [hrec]
  refine List.mem_map.mpr ⟨r, hr, ?_⟩
  rcases hfail with h1 | h1 <;> simp [processRow, h1]

/-- Witness for C4, at a channel that always raises: the single claimed
row is recorded as `error` with null `roll_value`. -/
theorem channel_failure_per_row_isolation_witness :
    (1, Status.error, (none : Option Nat)) ∈
      recordedEntries (processRows (fun _ => ChannelOutcome.raised)
        (fun _ => false) 0 [sampleRow] [sampleRow]) :=
  (channel_failure_per_row_isolation (fun _ => ChannelOutcome.raised) 0
    [sampleRow] [sampleRow]).2.2 sampleRow (by simp) (Or.inl rfl)

/-- **C5.** If an unexpected exception escapes row processing in a cycle of
the animated variant, the whole batch transaction is rolled back: the cycle
does not commit, the committed table is exactly the pre-cycle table (so all
claimed rows keep `status = 'pending'` with `roll_value` and `processed_at`
unchanged), no exception propagates out of the cycle, and the next cycle
claims the same batch again. -/
theorem unexpected_error_whole_batch_rollback (t : List RollRequest)
    (limit : Nat) (chan : Nat → ChannelOutcome) (exc : Nat → Bool) (now : Nat)
    (h : ∃ r ∈ claimBatch t limit, exc r.request_id = true) :
    (checkAndProcessRollRequestsAnim t limit chan exc now).committed = false ∧
    (checkAndProcessRollRequestsAnim t limit chan exc now).table = t ∧
    (checkAndProcessRollRequestsAnim t limit chan exc now).raisedOut = false ∧
    (∀ r ∈ claimBatch (checkAndProcessRollRequestsAnim t limit chan exc now).table limit,
      r.status = Status.pending) ∧
    claimBatch (checkAndProcessRollRequestsAnim t limit chan exc now).table limit =
      claimBatch t limit := by
  have hne : (claimBatch t limit).isEmpty = false := by
    obtain ⟨r, hr, _⟩ := h
    cases hb : claimBatch t limit with
    | nil => rw [hb] at hr; simp at hr
    | cons a l => simp [hb]
  have herr := processRows_error_of_exc chan exc now (claimBatch t limit) h t
  have hcycle : checkAndProcessRollRequestsAnim t limit chan exc now =
      { table := t, committed := false, released := 1, raisedOut := false,
        recorded := [], warnings := 0 } := by
    simp [checkAndProcessRollRequestsAnim, hne, herr]
  refine ⟨by rw [hcycle], by rw [hcycle], by rw [hcycle], ?_, by rw [hcycle]⟩
  rw [hcycle]
  exact fun r hr => (mem_claimBatch hr).2.1

/-- Witness for C5, at a single pending row whose processing raises an
unexpected exception. -/
theorem unexpected_error_whole_batch_rollback_witness :
    (checkAndProcessRollRequestsAnim [sampleRow] 5 (fun _ => ChannelOutcome.ok 3)
      (fun _ => true) 0).committed = false ∧
    (checkAndProcessRollRequestsAnim [sampleRow] 5 (fun _ => ChannelOutcome.ok 3)
      (fun _ => true) 0).table = [sampleRow] :=
  ⟨(unexpected_error_whole_batch_rollback [sampleRow] 5 (fun _ => ChannelOutcome.ok 3)
      (fun _ => true) 0 ⟨sampleRow, by decide, rfl⟩).1,
   (unexpected_error_whole_batch_rollback [sampleRow] 5 (fun _ => ChannelOutcome.ok 3)
      (fun _ => true) 0 ⟨sampleRow, by decide, rfl⟩).2.1⟩

/-- **C6.** The outcome update touches a row only if its status is still
`pending` at update time: rows that do not match `request_id = rid AND
status = 'pending'` are left exactly as they were; the reported row count is
zero iff no still-pending row with that id exists, and (for the terminal
statuses the cycle writes) zero iff the table is unchanged; and a zero-row
update never aborts the batch — the row loop still completes for the
remaining rows. -/
theorem recordOutcome_pending_guard (t : List RollRequest) (rid : Nat)
    (st : Status) (rv : Option Nat) (now : Nat) (hst : st ≠ Status.pending) :
    ((recordOutcome t rid st rv now).2 = 0 ↔
      ∀ r ∈ t, ¬(r.request_id = rid ∧ r.status = Status.pending)) ∧
    ((recordOutcome t rid st rv now).2 = 0 ↔ (recordOutcome t rid st rv now).1 = t) ∧
    (∀ (i : Nat) (r : RollRequest), t[i]? = some r →
      ¬(r.request_id = rid ∧ r.status = Status.pending) →
      ((recordOutcome t rid st rv now).1)[i]? = some r) ∧
    (∀ (chan : Nat → ChannelOutcome) (t0 batch : List RollRequest), ∃ x,
      processRows chan (fun _ => false) now t0 batch = Except.ok x) := by
  have hcount : (recordOutcome t rid st rv now).2 = 0 ↔
      ∀ r ∈ t, ¬(r.request_id = rid ∧ r.status = Status.pending) := by
    simp only [recordOutcome, List.length_eq_zero, List.filter_eq_nil_iff]
    constructor
    · intro hf r hr hm
      exact hf r hr ((matchesPending_iff rid r).mpr hm)
    · intro hf r hr hm
      exact hf r hr ((matchesPending_iff rid r).mp hm)
  have hunchanged : ∀ (i : Nat) (r : RollRequest), t[i]? = some r →
      ¬(r.request_id = rid ∧ r.status = Status.pending) →
      ((recordOutcome t rid st rv now).1)[i]? = some r := by
    intro i r hi hm
    have hmp : matchesPending rid r = false := by
      cases hb : matchesPending rid r with
      | false => rfl
      | true => exact absurd ((matchesPending_iff rid r).mp hb) hm
    simp only [recordOutcome, List.getElem?_map, hi, Option.map_some']
    simp [hmp]
  refine ⟨hcount, ⟨?_, ?_⟩, hunchanged, ?_⟩
  · intro h0
    have hall := hcount.mp h0
    simp only [recordOutcome]
    conv_rhs => rw [← List.map_id t]
    refine List.map_congr_left ?_
    intro r hr
    have hmp : matchesPending rid r = false := by
      cases hb : matchesPending rid r with
      | false => rfl
      | true => exact absurd ((matchesPending_iff rid r).mp hb) (hall r hr)
    simp [hmp]
  · intro heq
    refine hcount.mpr ?_
    intro r hr hm
    obtain ⟨i, hi⟩ := List.mem_iff_getElem?.mp hr
    have hmap : ((recordOutcome t rid st rv now).1)[i]? =
        some { r with status := st, roll_value := rv, processed_at := some now } := by
      simp only [recordOutcome, List.getElem?_map, hi, Option.map_some']
      simp [(matchesPending_iff rid r).mpr hm]
    rw [heq, hi] at hmap
    have heqr : r = { r with status := st, roll_value := rv, processed_at := some now } :=
      Option.some.inj hmap
    have hstat : r.status = st := congrArg RollRequest.status heqr
    exact hst (by rw [← hstat]; exact hm.2)
  · intro chan t0 batch
    obtain ⟨t', w, h⟩ := processRows_ok_of_no_exc chan now batch t0
    exact ⟨_, h⟩

/-- Witness for C6: updating with a non-matching id leaves the sample row
untouched at its position. -/
theorem recordOutcome_pending_guard_witness :
    ((recordOutcome [sampleRow] 2 Status.error none 0).1)[0]? = some sampleRow :=
  (recordOutcome_pending_guard [sampleRow] 2 Status.error none 0
    (by decide)).2.2.1 0 sampleRow (by decide) (by decide)

/-- **C7 (code bug).** Evaluating the animated-emoji cycle (part_005) on a
table with no claimable pending rows: the empty-batch path calls
`client.release()` twice — once inline before the early `return` and once
more in the `finally` block — instead of the exactly-once release the
design guarantees (node-pg throws on the second release).  By contrast, a
non-empty successfully processed batch releases exactly once. -/
theorem empty_batch_double_release :
    (checkAndProcessRollRequestsAnim [] 5 (fun _ => ChannelOutcome.ok 1)
      (fun _ => false) 0).released = 2 ∧
    ¬(checkAndProcessRollRequestsAnim [] 5 (fun _ => ChannelOutcome.ok 1)
      (fun _ => false) 0).released = 1 ∧
    (checkAndProcessRollRequestsAnim [sampleRow] 5 (fun _ => ChannelOutcome.ok 1)
      (fun _ => false) 0).released = 1 := by
  exact ⟨rfl, by decide, by decide⟩

/-- **C8.** `shutdownHelper` is idempotent: a second signal while a shutdown
is already in progress performs no further actions (the handler returns at
the `isShuttingDownHelper` guard), and a first signal stops the DB polling
timer, stops the Telegram listener, closes the pool, and exits with code 0. -/
theorem shutdownHelper_idempotent (s : HelperBotState) :
    (s.isShuttingDownHelper = true → shutdownHelper s = s) ∧
    shutdownHelper (shutdownHelper s) = shutdownHelper s ∧
    (s.isShuttingDownHelper = false →
      (shutdownHelper s).dbPollingActive = false ∧
      (shutdownHelper s).telegramPolling = false ∧
      (shutdownHelper s).poolOpen = false ∧
      (shutdownHelper s).exitCode = some 0) := by
  have hid : ∀ u : HelperBotState, u.isShuttingDownHelper = true → shutdownHelper u = u :=
    fun u hu => by simp [shutdownHelper, hu]
  have hflag : ∀ u : HelperBotState, (shutdownHelper u).isShuttingDownHelper = true := by
    intro u
    by_cases hu : u.isShuttingDownHelper <;> simp [shutdownHelper, hu]
  refine ⟨hid s, hid _ (hflag s), ?_⟩
  intro hf
  simp [shutdownHelper, hf]

/-- Witness for C8, at a state where shutdown is already in progress: the
second signal changes nothing. -/
theorem shutdownHelper_idempotent_witness :
    shutdownHelper shutdownInProgressState = shutdownInProgressState :=
  (shutdownHelper_idempotent shutdownInProgressState).1 rfl

/-- **C9.** The variant selection `request.emoji_type || '🎲'` sends the
default six-sided die for a null/undefined or empty-string `emoji_type`,
and never passes the empty string to the Notification Channel. -/
theorem emojiToSend_default_on_falsy (e : Option String) :
    ((e = none ∨ e = some "") → emojiToSend e = defaultEmoji) ∧
    emojiToSend e ≠ "" := by
  constructor
  · rintro (rfl | rfl) <;> simp [emojiToSend]
  · cases e with
    | none =>
      show defaultEmoji ≠ ""
      decide
    | some s =>
      by_cases hs : s = ""
      · simp only [emojiToSend, hs, if_pos rfl]
        decide
      · simp only [emojiToSend, if_neg hs]
        exact hs

/-- Witness for C9: an empty-string variant is replaced by the default die. -/
theorem emojiToSend_default_on_falsy_witness :
    emojiToSend (some "") = defaultEmoji :=
  (emojiToSend_default_on_falsy (some "")).1 (Or.inr rfl)

/-- **C10.** In the plain DB-poll variant, every outcome a cycle records is
`completed` with a locally generated value in `[1,6]`; the terminal status
`error` is never written. -/
theorem dbpoll_records_only_completed (entropy : Nat → Nat) (exc : Nat → Bool)
    (now : Nat) (t batch : List RollRequest) :
    ∀ e ∈ recordedEntries (processRowsDbPoll entropy exc now t batch),
      e.2.1 = Status.completed ∧ e.2.1 ≠ Status.error ∧
      ∃ v, e.2.2 = some v ∧ 1 ≤ v ∧ v ≤ 6 := by
  induction batch generalizing t with
  | nil => intro e he; simp [processRowsDbPoll, recordedEntries] at he
  | cons r rs ih =>
    intro e he
    by_cases hr : exc r.request_id
    · simp [processRowsDbPoll, hr, recordedEntries] at he
    · cases hrec : processRowsDbPoll entropy exc now (recordOutcome t r.request_id
        Status.completed (some (entropy r.request_id % 6 + 1)) now).1 rs with
      | ok x =>
        simp only [processRowsDbPoll, hr, Bool.false_eq_true, if_false, hrec,
          recordedEntries, List.mem_cons] at he
        rcases he with rfl | he'
        · refine ⟨rfl, fun hco => Status.noConfusion hco,
            entropy r.request_id % 6 + 1, rfl, ?_, ?_⟩
          · exact Nat.succ_le_succ (Nat.zero_le _)
          · have : entropy r.request_id % 6 < 6 := Nat.mod_lt _ (by decide)
            omega
        · exact ih (recordOutcome t r.request_id Status.completed
            (some (entropy r.request_id % 6 + 1)) now).1 e (by rw [hrec]; exact he')
      | error u =>
        simp [processRowsDbPoll, hr, hrec, recordedEntries] at he

/-- Witness for C10: with entropy 2 the single claimed row is recorded as
`completed` with value 3. -/
theorem dbpoll_records_only_completed_witness :
    ((1, Status.completed, some 3) : Nat × Status × Option Nat).2.1 = Status.completed ∧
    ((1, Status.completed, some 3) : Nat × Status × Option Nat).2.1 ≠ Status.error ∧
    ∃ v, ((1, Status.completed, some 3) : Nat × Status × Option Nat).2.2 = some v ∧
      1 ≤ v ∧ v ≤ 6 :=
  dbpoll_records_only_completed (fun _ => 2) (fun _ => false) 0 [sampleRow]
    [sampleRow] (1, Status.completed, some 3) (by decide)

/-- **C1 counterexample.** The scheduler installed by `startHelperBot` has
no Running-state guard: a second timer tick while one cycle invocation is
still in flight starts a second concurrent invocation instead of being a
no-op, so two cycles can be active at once. -/
theorem scheduler_overlap_counterexample :
    maxActive 0 [SchedulerEvent.tick, SchedulerEvent.tick] = 2 ∧
    ¬ maxActive 0 [SchedulerEvent.tick, SchedulerEvent.tick] ≤ 1 ∧
    startHelperBotStep 1 SchedulerEvent.tick = 2 := by
  decide

/-- **C1 (amended).** A timer tick unconditionally invokes the cycle
function — even while a cycle is Running — so ticks are never no-ops and
in-flight cycles can overlap; at most one batch cycle is active at a time
only in executions in which every cycle invocation completes before the
next tick fires. -/
theorem scheduler_tick_unconditional (es : List SchedulerEvent) (a : Nat)
    (ha : a ≤ 1) (hidle : ticksOnlyWhenIdle a es = true) :
    (∀ b : Nat, startHelperBotStep b SchedulerEvent.tick = b + 1) ∧
    maxActive a es ≤ 1 := by
  refine ⟨fun b => rfl, ?_⟩
  induction es generalizing a with
  | nil => exact ha
  | cons e rest ih =>
    cases e with
    | tick =>
      simp only [ticksOnlyWhenIdle, Bool.and_eq_true, beq_iff_eq] at hidle
      obtain ⟨rfl, hrest⟩ := hidle
      simpa [maxActive, startHelperBotStep] using ih 1 (by decide) hrest
    | cycleEnd =>
      simp only [ticksOnlyWhenIdle] at hidle
      have hrec := ih (a - 1) (by omega) hidle
      simp only [maxActive, startHelperBotStep]
      omega

/-- Witness for the amended C1, on a trace where each cycle completes
before the next tick. -/
theorem scheduler_tick_unconditional_witness :
    maxActive 0 [SchedulerEvent.tick, SchedulerEvent.cycleEnd,
      SchedulerEvent.tick, SchedulerEvent.cycleEnd] ≤ 1 :=
  (scheduler_tick_unconditional [SchedulerEvent.tick, SchedulerEvent.cycleEnd,
      SchedulerEvent.tick, SchedulerEvent.cycleEnd] 0 (by decide) (by decide)).2

/-- Witness for C2: the sample pending row is claimed from a singleton
table, confirming the select-time facts at a concrete input. -/
theorem claimBatch_spec_witness :
    sampleRow ∈ [sampleRow] ∧ sampleRow.status = Status.pending ∧
    sampleRow.lockedByOther = false :=
  (claimBatch_spec [sampleRow] 5).2.1 sampleRow (by decide)
